import Mathlib

/-!
Verification of the temporal state-history tracking model of the fbi-bot-api
repository, as described by its specification.

The development shallowly embeds:
* the database schema of `src/app/discord/models.py` (table row shapes, CHECK
  constraints and the partial unique index on current names);
* the GraphQL read layer of `src/app/graphql/` (resolvers, duration fields,
  the authentication gate of `context.py`);
* the transition engine and the voice-session lifecycle, which are not part
  of this repository's sources (the write path lives in the external bot
  process); those are modelled from the specification's words and are marked
  as such in their doc comments.

Timestamps are embedded as integers (seconds); SQL `NULL` becomes `Option`.
A table is embedded as a `List` of row structures, and a SQLAlchemy
`SELECT ... .first()` as `List.find?` on that list.
-/

namespace FbiBotApi

/-! ## Enumerations (src/app/discord/models.py) -/

/-- Discord status types (`DiscordStatus` in models.py). -/
inductive DiscordStatus where
  | online
  | idle
  | dnd
  | offline
  | streaming
deriving DecidableEq, Repr

/-- Discord activity types (`ActivityType` in models.py). -/
inductive ActivityType where
  | competing
  | custom
  | listening
  | playing
  | streaming
  | watching
deriving DecidableEq, Repr

/-- Discord voice state types (`VoiceStateType` in models.py). -/
inductive VoiceStateType where
  | deaf
  | mute
  | self_deaf
  | self_mute
  | self_stream
  | self_video
deriving DecidableEq, Repr

/-! ## Table row shapes (src/app/discord/models.py) -/

/-- A row of the `users` table (`User` in models.py). -/
structure UserRow where
  user_id : Int
  first_seen : Int
deriving DecidableEq, Repr

/-- A row of the `presence_status_log` table (`PresenceStatusLog` in
models.py): `set_at` is the interval start, `changed_at` the end
(`none` while the status is still active). -/
structure PresenceStatusLog where
  id : Int
  user_id : Int
  status_type : DiscordStatus
  set_at : Int
  changed_at : Option Int
deriving DecidableEq, Repr

/-- A row of the `voice_sessions` table (`VoiceSession` in models.py). -/
structure VoiceSession where
  id : Int
  user_id : Int
  channel_id : Int
  joined_at : Int
  left_at : Option Int
deriving DecidableEq, Repr

/-- A row of the `voice_state_log` table (`VoiceStateLog` in models.py),
owned by the voice session `session_id`. -/
structure VoiceStateLog where
  id : Int
  session_id : Int
  state_type : VoiceStateType
  started_at : Int
  ended_at : Option Int
deriving DecidableEq, Repr

/-- A row of the `activity_log` table (`ActivityLog` in models.py). -/
structure ActivityLog where
  id : Int
  user_id : Int
  activity_type : ActivityType
  activity_name : String
  started_at : Int
  ended_at : Option Int
deriving DecidableEq, Repr

/-- A row of the `user_names_history` table (`UserNameHistory` in
models.py); `effective_until = none` marks the current name state. -/
structure UserNameHistory where
  id : Int
  user_id : Int
  username : String
  display_name : Option String
  global_name : Option String
  effective_from : Int
  effective_until : Option Int
deriving DecidableEq, Repr

/-! ## CHECK constraints of the schema (models.py `__table_args__`) -/

/-- `ck_presence_status_valid_period`:
`(changed_at IS NULL) OR (changed_at >= set_at)`. -/
def ck_presence_status_valid_period (r : PresenceStatusLog) : Bool :=
  match r.changed_at with
  | none => true
  | some e => r.set_at ≤ e

/-- `ck_voice_session_valid_period`:
`(left_at IS NULL) OR (left_at >= joined_at)`. -/
def ck_voice_session_valid_period (r : VoiceSession) : Bool :=
  match r.left_at with
  | none => true
  | some e => r.joined_at ≤ e

/-- `ck_voice_state_log_valid_period`:
`(ended_at IS NULL) OR (ended_at >= started_at)`. -/
def ck_voice_state_log_valid_period (r : VoiceStateLog) : Bool :=
  match r.ended_at with
  | none => true
  | some e => r.started_at ≤ e

/-- `ck_activity_log_valid_period`:
`(ended_at IS NULL) OR (ended_at >= started_at)`. -/
def ck_activity_log_valid_period (r : ActivityLog) : Bool :=
  match r.ended_at with
  | none => true
  | some e => r.started_at ≤ e

/-- `ck_user_names_history_valid_period`:
`(effective_until IS NULL AND effective_from IS NOT NULL) OR
(effective_until IS NOT NULL AND effective_until > effective_from)`.
`effective_from` is a non-nullable column, so the first disjunct reduces to
`effective_until IS NULL` in this embedding. -/
def ck_user_names_history_valid_period (r : UserNameHistory) : Bool :=
  match r.effective_until with
  | none => true
  | some e => r.effective_from < e

/-- The rows of `user_names_history` holding the current name of `uid`
(`effective_until IS NULL`). -/
def currentNameRows (rows : List UserNameHistory) (uid : Int) :
    List UserNameHistory :=
  rows.filter fun r => r.user_id == uid && r.effective_until.isNone

/-- `idx_user_names_unique_current`: the partial unique index on
`user_names_history (user_id) WHERE effective_until IS NULL` — two rows that
both carry a null `effective_until` for the same user must be the same row. -/
def idx_user_names_unique_current (rows : List UserNameHistory) : Prop :=
  ∀ r ∈ rows, ∀ s ∈ rows,
    r.effective_until = none → s.effective_until = none →
    r.user_id = s.user_id → r = s

/-! ## Transition engine

Modelled from the spec: the transition engine (spec §4.2) and the generic
`IntervalRecord` store (§4.1) are not part of this repository's sources —
the write path lives in the external bot process; only the tables it writes
to (above) and the read layer (below) are in `src/`. -/

/-- Modelled from the spec: the generic `IntervalRecord` entity of §3, one
record of a subject+domain stream. `stop` embeds the spec's nullable `end`
column (`end` is a reserved word in Lean). -/
structure IntervalRecord (σ : Type) where
  state : σ
  start : Int
  stop : Option Int
deriving DecidableEq, Repr

/-- Modelled from the spec: the outcome of `observe` (§4.2), with
`OutOfOrderError` of §7 included as a fourth case so that an erroring call
can return the store unchanged alongside the error. -/
inductive ObserveResult (σ : Type) where
  | opened
  | unchanged
  | transitioned (old new : σ)
  | outOfOrderError
deriving DecidableEq, Repr

/-- Modelled from the spec: `get_open` (§4.1) — the currently open record of
a subject+domain stream, if any. -/
def getOpen {σ : Type} (recs : List (IntervalRecord σ)) :
    Option (IntervalRecord σ) :=
  recs.find? fun r => r.stop.isNone

/-- Modelled from the spec: `close_open` (§4.1) — set `end` on the currently
open record (under invariant I1 there is at most one). -/
def closeOpen {σ : Type} (recs : List (IntervalRecord σ)) (t : Int) :
    List (IntervalRecord σ) :=
  recs.map fun r => if r.stop.isNone then { r with stop := some t } else r

/-- Modelled from the spec: `observe(subject_id, domain, new_state, at)`
(§4.2) on one subject+domain stream, with the steps in the order the
specification lists them: with no open record a new one is opened (step 2);
an equal state under the domain's equality rule is a no-op (step 3); for a
differing state a timestamp not strictly greater than the open record's
start is rejected as out-of-order (steps 5 and 6); otherwise the open
record is closed at `t` and a new one opened (step 4). An erroring call
returns the stream unchanged. -/
def observe {σ : Type} (eq : σ → σ → Bool) (recs : List (IntervalRecord σ))
    (new : σ) (t : Int) : List (IntervalRecord σ) × ObserveResult σ :=
  match getOpen recs with
  | none => (recs ++ [⟨new, t, none⟩], .opened)
  | some c =>
    if eq c.state new then (recs, .unchanged)
    else if t ≤ c.start then (recs, .outOfOrderError)
    else (closeOpen recs t ++ [⟨new, t, none⟩], .transitioned c.state new)

/-- Number of open records in a stream; invariant I1 says this is at most
one. -/
def openCount {σ : Type} (recs : List (IntervalRecord σ)) : Nat :=
  (recs.filter fun r => r.stop.isNone).length

/-- Modelled from the spec: a sequence of observations applied in order to
one subject+domain stream (outcomes discarded; an erroring call leaves the
stream unchanged). -/
def observeAll {σ : Type} (eq : σ → σ → Bool) (obs : List (σ × Int))
    (recs : List (IntervalRecord σ)) : List (IntervalRecord σ) :=
  obs.foldl (fun acc o => (observe eq acc o.1 o.2).1) recs

/-! ## Voice-session lifecycle

Modelled from the spec: the voice-session state machine of §4.3 and
`close_session` of §6 are not part of this repository's sources; the
`voice_sessions` and `voice_state_log` tables they write to are. -/

/-- Modelled from the spec: one flag interval of a voice session — the
`state_type`, `started_at`, `ended_at` columns of a `voice_state_log` row
owned by the session. -/
structure FlagRecord where
  state_type : VoiceStateType
  started_at : Int
  ended_at : Option Int
deriving DecidableEq, Repr

/-- Modelled from the spec: a voice session together with its owned flag
sub-stream (§3) — one `voice_sessions` row plus its `voice_state_log`
rows. -/
structure SessionState where
  joined_at : Int
  left_at : Option Int
  flags : List FlagRecord
deriving DecidableEq, Repr

/-- Number of open flag intervals of one flag type in a session's flag
sub-stream; each flag is an independent single-open stream (§4.3). -/
def openFlagCount (flags : List FlagRecord) (f : VoiceStateType) : Nat :=
  (flags.filter fun fl => decide (fl.state_type = f) && fl.ended_at.isNone).length

/-- Modelled from the spec: opening a flag interval in a session (§4.3);
`append_open` of §4.1 demands that no open record for the flag exists. -/
def openFlag (s : SessionState) (f : VoiceStateType) (t : Int) : SessionState :=
  { s with flags := s.flags ++ [⟨f, t, none⟩] }

/-- Modelled from the spec: closing the open interval of one flag type
(§4.3). -/
def closeFlag (s : SessionState) (f : VoiceStateType) (t : Int) : SessionState :=
  { s with flags := s.flags.map fun fl =>
      if decide (fl.state_type = f) && fl.ended_at.isNone then
        { fl with ended_at := some t }
      else fl }

/-- Modelled from the spec: `close_session(subject_id, session_id, t)` (§6)
— sets the session's `left_at` to `t` and force-closes every still-open
flag interval of the session with `end = t` (§4.3). -/
def closeSession (s : SessionState) (t : Int) : SessionState :=
  { joined_at := s.joined_at
    left_at := some t
    flags := s.flags.map fun fl =>
      if fl.ended_at.isNone then { fl with ended_at := some t } else fl }

/-- Every timestamp already present in the session state is at most `t`:
events arrive in order (spec §4.2 — history is append-only and monotonic
per subject+domain). -/
def timesBefore (s : SessionState) (t : Int) : Prop :=
  s.joined_at ≤ t ∧
    ∀ fl ∈ s.flags, fl.started_at ≤ t ∧ ∀ e, fl.ended_at = some e → e ≤ t

/-- Modelled from the spec: the session states reachable by the lifecycle
state machine of §4.3 — `Absent -> Joined (open session interval) ->
[flags open/close independently] -> Left (close session interval,
force-close all open flag intervals)`. -/
inductive SessionReachable : SessionState → Prop where
  | join (t : Int) : SessionReachable ⟨t, none, []⟩
  | flagOn (s : SessionState) (f : VoiceStateType) (t : Int) :
      SessionReachable s → s.left_at = none → timesBefore s t →
      openFlagCount s.flags f = 0 →
      SessionReachable (openFlag s f t)
  | flagOff (s : SessionState) (f : VoiceStateType) (t : Int) :
      SessionReachable s → s.left_at = none → timesBefore s t →
      SessionReachable (closeFlag s f t)
  | leave (s : SessionState) (t : Int) :
      SessionReachable s → s.left_at = none → timesBefore s t →
      SessionReachable (closeSession s t)

/-! ## GraphQL layer (src/app/graphql/) -/

/-- An API-key role (`role` column of `api_keys` in src/app/auth/models.py:
`admin` or `read`). -/
inductive UserRole where
  | admin
  | read
deriving DecidableEq, Repr

/-- An API key, restricted to the columns the GraphQL layer reads
(src/app/auth/models.py `ApiKey`). -/
structure ApiKey where
  id : Int
  name : String
  role : UserRole
  created_at : Int
deriving DecidableEq, Repr

/-- The GraphQL execution context (`GraphQLContext` in
src/app/graphql/context.py): an optional authenticated API key. -/
structure GraphQLContext where
  api_key : Option ApiKey
deriving DecidableEq, Repr

/-- `GraphQLContext.is_authenticated`: the API key is present. -/
def GraphQLContext.is_authenticated (ctx : GraphQLContext) : Bool :=
  ctx.api_key.isSome

/-- `GraphQLContext.is_admin`: the API key is present and has the admin
role. -/
def GraphQLContext.is_admin (ctx : GraphQLContext) : Bool :=
  match ctx.api_key with
  | some k => decide (k.role = UserRole.admin)
  | none => false

/-- The Discord database visible to the GraphQL resolvers, restricted to
the tables the embedded resolvers touch. -/
structure DiscordDB where
  users : List UserRow
  user_names_history : List UserNameHistory
  voice_sessions : List VoiceSession
  voice_state_log : List VoiceStateLog
deriving DecidableEq, Repr

/-- `Query.user` (src/app/graphql/resolvers/discord.py): authentication
gate, then the user row with the given id, if any. -/
def Query.user (ctx : GraphQLContext) (db : DiscordDB) (uid : Int) :
    Except String (Option UserRow) :=
  if !ctx.is_authenticated then Except.error "Authentication required"
  else Except.ok (db.users.find? fun u => u.user_id == uid)

/-- Python `str.strip()` as used on the search query: drop whitespace from
both ends, embedded over the string's character list so that it evaluates
by kernel reduction. -/
def pyStrip (s : String) : String :=
  String.mk (((s.toList.dropWhile Char.isWhitespace).reverse.dropWhile
    Char.isWhitespace).reverse)

/-- SQL `ILIKE '%term%'`: case-insensitive substring containment. -/
def ilike_contains (term s : String) : Bool :=
  decide (term.toLower.toList <:+: s.toLower.toList)

/-- One `user_names_history` row matches the search term on any of
`username`, `display_name`, `global_name` (the `or_` of ILIKE filters in
`Query.search_users`); an ILIKE against a NULL column never matches. -/
def matchesCurrentName (term : String) (r : UserNameHistory) : Bool :=
  ilike_contains term r.username ||
  (match r.display_name with
   | some d => ilike_contains term d
   | none => false) ||
  (match r.global_name with
   | some g => ilike_contains term g
   | none => false)

/-- `Query.search_users` (src/app/graphql/resolvers/discord.py):
authentication gate; an empty query or one shorter than two characters
after stripping returns the empty list; otherwise users joined with a
`user_names_history` row with `effective_until IS NULL` matching the
stripped term, ordered by `first_seen` descending, limited. The SQL inner
join is embedded as an existence filter: under the partial unique index at
most one current name row per user exists, so the join produces each
matching user once. -/
def Query.search_users (ctx : GraphQLContext) (db : DiscordDB) (q : String)
    (lim : Nat) : Except String (List UserRow) :=
  if !ctx.is_authenticated then Except.error "Authentication required"
  else if q == "" || decide ((pyStrip q).length < 2) then Except.ok []
  else
    Except.ok
      (((db.users.filter fun u =>
          db.user_names_history.any fun r =>
            r.user_id == u.user_id && r.effective_until.isNone &&
              matchesCurrentName (pyStrip q) r).mergeSort
        fun a b => decide (b.first_seen ≤ a.first_seen)).take lim)

/-- `UserType.current_name` (src/app/graphql/types/discord.py):
authentication gate, then the first `user_names_history` row of the user
with `effective_until IS NULL`, or `None`. -/
def UserType.current_name (ctx : GraphQLContext) (db : DiscordDB)
    (uid : Int) : Except String (Option UserNameHistory) :=
  if !ctx.is_authenticated then Except.error "Authentication required"
  else Except.ok (db.user_names_history.find? fun r =>
    r.user_id == uid && r.effective_until.isNone)

/-- `VoiceSessionType.voice_states` (src/app/graphql/types/discord.py):
authentication gate, then the `voice_state_log` rows of the session ordered
by `started_at`. -/
def VoiceSessionType.voice_states (ctx : GraphQLContext) (db : DiscordDB)
    (sessionId : Int) : Except String (List VoiceStateLog) :=
  if !ctx.is_authenticated then Except.error "Authentication required"
  else Except.ok
    ((db.voice_state_log.filter fun v => v.session_id == sessionId).mergeSort
      fun a b => decide (a.started_at ≤ b.started_at))

/-- `VoiceSessionType.duration_minutes` (src/app/graphql/types/discord.py):
`max(0, int(duration.total_seconds() / 60))` when `left_at` is set, `None`
otherwise. `Int.tdiv` matches Python `int()` truncation toward zero. -/
def VoiceSessionType.duration_minutes (s : VoiceSession) : Option Int :=
  match s.left_at with
  | some e => some (max 0 ((e - s.joined_at).tdiv 60))
  | none => none

/-- `VoiceStateLogType.duration_minutes` (src/app/graphql/types/discord.py):
`max(0, int(duration.total_seconds() / 60))` when `ended_at` is set, `None`
otherwise. -/
def VoiceStateLogType.duration_minutes (v : VoiceStateLog) : Option Int :=
  match v.ended_at with
  | some e => some (max 0 ((e - v.started_at).tdiv 60))
  | none => none

/-- The `voice_query` of `UserType.stats` (src/app/graphql/types/discord.py
lines 551-569): sum of `extract(epoch, left_at - joined_at) / 60` over the
user's sessions with `left_at IS NOT NULL`, restricted to
`joined_at >= start_date` when a `days` window is given. Embedded in
seconds: the source divides each summand by 60 and truncates the grand
total once at the end, which does not change which sessions contribute. -/
def stats_total_voice_seconds (db : DiscordDB) (uid : Int)
    (start_date : Option Int) : Int :=
  ((db.voice_sessions.filter fun s =>
      s.user_id == uid && s.left_at.isSome &&
        match start_date with
        | none => true
        | some d => decide (d ≤ s.joined_at)).map
    fun s => s.left_at.getD s.joined_at - s.joined_at).sum

/-- The authentication gate of `UserType.stats`
(src/app/graphql/types/discord.py) around its voice-time component. -/
def UserType.stats_voice (ctx : GraphQLContext) (db : DiscordDB) (uid : Int)
    (start_date : Option Int) : Except String Int :=
  if !ctx.is_authenticated then Except.error "Authentication required"
  else Except.ok (stats_total_voice_seconds db uid start_date)

/-- The voice-time query of `Query.server_stats`
(src/app/graphql/resolvers/discord.py lines 360-365): sum of
`extract(epoch, left_at - joined_at) / 3600` over all sessions with
`left_at IS NOT NULL`, restricted to `joined_at >= start_date` when a
window is given. Embedded in seconds; the source divides by 3600. -/
def server_stats_total_voice_seconds (db : DiscordDB)
    (start_date : Option Int) : Int :=
  ((db.voice_sessions.filter fun s =>
      s.left_at.isSome &&
        match start_date with
        | none => true
        | some d => decide (d ≤ s.joined_at)).map
    fun s => s.left_at.getD s.joined_at - s.joined_at).sum

/-- The authentication gate of `Query.server_stats`
(src/app/graphql/resolvers/discord.py) around its voice-time component. -/
def Query.server_stats_voice (ctx : GraphQLContext) (db : DiscordDB)
    (start_date : Option Int) : Except String Int :=
  if !ctx.is_authenticated then Except.error "Authentication required"
  else Except.ok (server_stats_total_voice_seconds db start_date)

/-- `Query.hello` (src/app/graphql/schema.py): returns a greeting string;
an unauthenticated request gets a fixed "please authenticate" message
rather than an error. -/
def Query.hello (ctx : GraphQLContext) : String :=
  if !ctx.is_authenticated then
    "Hello! Please authenticate to access Discord data."
  else
    (match ctx.api_key with
     | some k => "Hello " ++ k.name ++ "! You have access to the Discord data API."
     | none => "Hello Unknown! You have access to the Discord data API.")

/-- `Query.api_keys` (src/app/graphql/schema.py): admin-only listing of all
API keys ordered by `created_at` descending; a non-admin (in particular an
unauthenticated) context gets "Admin access required". -/
def Query.api_keys (ctx : GraphQLContext) (keys : List ApiKey) :
    Except String (List ApiKey) :=
  if !ctx.is_admin then Except.error "Admin access required"
  else Except.ok (keys.mergeSort fun a b => decide (b.created_at ≤ a.created_at))

/-- `Query.me` (src/app/graphql/schema.py): the current API key, or
"Authentication required". The source checks `is_authenticated`, which is
exactly the presence of the key. -/
def Query.me (ctx : GraphQLContext) : Except String ApiKey :=
  match ctx.api_key with
  | some k => Except.ok k
  | none => Except.error "Authentication required"

/-- Follows the specification's words, for comparison with the code:
`duration_in(subject_id, domain, t0, t1, predicate)` of §4.4 over the
voice-session domain with the always-true predicate — sums
`min(end, t1) - max(start, t0)` over the `list_overlapping` results of §4.1
(`start < t1 AND (end IS NULL OR end > t0)`), an open record using `t1` as
its effective end. -/
def duration_in_spec (db : DiscordDB) (uid t0 t1 : Int) : Int :=
  ((db.voice_sessions.filter fun s =>
      s.user_id == uid && decide (s.joined_at < t1) &&
        match s.left_at with
        | none => true
        | some e => decide (t0 < e)).map
    fun s => min (s.left_at.getD t1) t1 - max s.joined_at t0).sum

/-! ## Engine lemmas -/

/-- Auxiliary: open-record counts add over concatenation. -/
theorem openCount_append {σ : Type} (l₁ l₂ : List (IntervalRecord σ)) :
    openCount (l₁ ++ l₂) = openCount l₁ + openCount l₂ := by
  simp [openCount, List.filter_append]

/-- Auxiliary: after `close_open` no record of the stream is open. -/
theorem openCount_closeOpen {σ : Type} (recs : List (IntervalRecord σ))
    (t : Int) : openCount (closeOpen recs t) = 0 := by
  unfold openCount closeOpen
  rw [List.filter_map]
  have h : ((fun r : IntervalRecord σ => r.stop.isNone) ∘
      fun r : IntervalRecord σ =>
        if r.stop.isNone then { r with stop := some t } else r) =
        fun _ => false := by
    funext r
    simp only [Function.comp_apply]
    cases hstop : r.stop with
    | none => simp [hstop]
    | some e => simp [hstop]
  rw [h]
  simp

/-- Auxiliary: a stream with no open record has open-count zero. -/
theorem openCount_eq_zero_of_getOpen_none {σ : Type}
    {recs : List (IntervalRecord σ)} (h : getOpen recs = none) :
    openCount recs = 0 := by
  unfold getOpen at h
  rw [List.find?_eq_none] at h
  unfold openCount
  rw [List.length_eq_zero, List.filter_eq_nil_iff]
  exact h

/-- Auxiliary: re-observation of the open state is a no-op. -/
theorem observe_eq_state_unchanged {σ : Type} (eq : σ → σ → Bool)
    {recs : List (IntervalRecord σ)} {c : IntervalRecord σ} (s : σ) (t : Int)
    (hg : getOpen recs = some c) (he : eq c.state s = true) :
    observe eq recs s t = (recs, ObserveResult.unchanged) := by
  simp [observe, hg, he]

/-- Auxiliary: repeated same-state observations leave the singleton open
stream unchanged. -/
theorem observeAll_same_singleton {σ : Type} (eq : σ → σ → Bool) (s : σ)
    (t₁ : Int) (hrefl : eq s s = true) (ts : List Int) :
    observeAll eq (ts.map fun t => (s, t)) [⟨s, t₁, none⟩]
      = [⟨s, t₁, none⟩] := by
  induction ts with
  | nil => rfl
  | cons t rest ih =>
    have hg : getOpen [(⟨s, t₁, none⟩ : IntervalRecord σ)]
        = some ⟨s, t₁, none⟩ := by
      simp [getOpen]
    have hstep : (observe eq [(⟨s, t₁, none⟩ : IntervalRecord σ)] s t).1
        = [⟨s, t₁, none⟩] := by
      rw [observe_eq_state_unchanged eq s t hg hrefl]
    simp only [List.map_cons, observeAll, List.foldl_cons]
    rw [hstep]
    simpa [observeAll] using ih

/-! ## Voice-session lemmas -/

/-- Auxiliary: per-flag open counts add over concatenation. -/
theorem openFlagCount_append (l₁ l₂ : List FlagRecord) (f : VoiceStateType) :
    openFlagCount (l₁ ++ l₂) f = openFlagCount l₁ f + openFlagCount l₂ f := by
  simp [openFlagCount, List.filter_append]

/-- Auxiliary: per-flag open count of a cons cell. -/
theorem openFlagCount_cons (x : FlagRecord) (l : List FlagRecord)
    (g : VoiceStateType) :
    openFlagCount (x :: l) g =
      (if decide (x.state_type = g) && x.ended_at.isNone then 1 else 0) +
        openFlagCount l g := by
  by_cases h : (decide (x.state_type = g) && x.ended_at.isNone) = true
  · simp [openFlagCount, List.filter_cons, h, Nat.add_comm]
  · simp [openFlagCount, List.filter_cons, h]

/-- Auxiliary: opening a flag interval adds one open record for that flag
and none for any other. -/
theorem openFlagCount_openFlag (s : SessionState) (f : VoiceStateType)
    (t : Int) (g : VoiceStateType) :
    openFlagCount (openFlag s f t).flags g =
      openFlagCount s.flags g + (if f = g then 1 else 0) := by
  show openFlagCount (s.flags ++ [⟨f, t, none⟩]) g = _
  rw [openFlagCount_append]
  by_cases h : f = g <;> simp [openFlagCount, List.filter_cons, h]

/-- Auxiliary: closing a flag never increases any flag's open count. -/
theorem openFlagCount_closeFlag_le (s : SessionState) (f : VoiceStateType)
    (t : Int) (g : VoiceStateType) :
    openFlagCount (closeFlag s f t).flags g ≤ openFlagCount s.flags g := by
  show openFlagCount (s.flags.map fun fl : FlagRecord =>
      if decide (fl.state_type = f) && fl.ended_at.isNone then
        { fl with ended_at := some t }
      else fl) g ≤ openFlagCount s.flags g
  induction s.flags with
  | nil => simp [openFlagCount]
  | cons fl rest ih =>
    simp only [List.map_cons, openFlagCount_cons]
    by_cases h1 : (decide (fl.state_type = f) && fl.ended_at.isNone) = true
    · simp only [h1, if_true]
      have hz : (decide (({ fl with ended_at := some t } :
          FlagRecord).state_type = g) &&
            ({ fl with ended_at := some t } : FlagRecord).ended_at.isNone)
          = false := by
        simp
      rw [hz]
      simp only [Bool.false_eq_true, if_false, Nat.zero_add]
      exact le_trans ih (Nat.le_add_left _ _)
    · simp only [h1, Bool.false_eq_true, if_false]
      exact Nat.add_le_add_left ih _

/-- Auxiliary: after `close_session` no flag interval of the session is
open. -/
theorem openFlagCount_closeSession (s : SessionState) (t : Int)
    (g : VoiceStateType) : openFlagCount (closeSession s t).flags g = 0 := by
  show openFlagCount (s.flags.map fun fl : FlagRecord =>
      if fl.ended_at.isNone then { fl with ended_at := some t } else fl) g = 0
  unfold openFlagCount
  rw [List.filter_map]
  have h : ((fun fl : FlagRecord =>
      decide (fl.state_type = g) && fl.ended_at.isNone) ∘
        fun fl : FlagRecord =>
          if fl.ended_at.isNone then { fl with ended_at := some t } else fl) =
          fun _ => false := by
    funext fl
    simp only [Function.comp_apply]
    cases hend : fl.ended_at with
    | none => simp [hend]
    | some e => simp [hend]
  rw [h]
  simp

/-- Auxiliary: every reachable session state has at most one open flag
interval per flag type. -/
theorem reachable_openFlagCount_le_one (s : SessionState)
    (hs : SessionReachable s) (f : VoiceStateType) :
    openFlagCount s.flags f ≤ 1 := by
  induction hs with
  | join t => simp [openFlagCount]
  | flagOn s g t hs hleft htimes hguard ih =>
    rw [openFlagCount_openFlag]
    by_cases hgf : g = f
    · subst hgf
      rw [hguard]
      simp
    · simp only [hgf, if_false]
      omega
  | flagOff s g t hs hleft htimes ih =>
    exact le_trans (openFlagCount_closeFlag_le s g t f) ih
  | leave s t hs hleft htimes ih =>
    rw [openFlagCount_closeSession]
    omega

/-! ## C1: the single-open-interval invariant -/

/-- C1: invariant I1 — `observe` preserves "at most one open record" on
every subject+domain stream tracked through the generic engine (name,
presence, voice flag, activity), and every reachable voice-session state
has at most one open flag interval per flag type; a current-state query
therefore returns at most one record. -/
theorem single_open_state_invariant :
    (∀ (σ : Type) (eq : σ → σ → Bool) (recs : List (IntervalRecord σ))
        (s : σ) (t : Int),
      openCount recs ≤ 1 → openCount (observe eq recs s t).1 ≤ 1) ∧
    (∀ s : SessionState, SessionReachable s → ∀ f : VoiceStateType,
      openFlagCount s.flags f ≤ 1) := by
  constructor
  · intro σ eq recs s t h
    cases hg : getOpen recs with
    | none =>
      have h0 := openCount_eq_zero_of_getOpen_none hg
      have hobs : (observe eq recs s t).1 = recs ++ [⟨s, t, none⟩] := by
        simp [observe, hg]
      rw [hobs, openCount_append, h0]
      simp [openCount, List.filter_cons]
    | some c =>
      by_cases h1 : eq c.state s
      · simpa [observe, hg, h1] using h
      · by_cases h2 : t ≤ c.start
        · simpa [observe, hg, h1, h2] using h
        · have hobs : (observe eq recs s t).1
              = closeOpen recs t ++ [⟨s, t, none⟩] := by
            simp [observe, hg, h1, h2]
          rw [hobs, openCount_append, openCount_closeOpen]
          simp [openCount, List.filter_cons]
  · exact fun s hs f => reachable_openFlagCount_le_one s hs f

/-- Witness for `single_open_state_invariant`: a step of the engine from
the empty stream, and the freshly joined session. -/
theorem single_open_state_invariant_witness :
    openCount (observe (fun a b : DiscordStatus => decide (a = b)) []
      DiscordStatus.online 0).1 ≤ 1 ∧
    openFlagCount (SessionState.mk 0 none []).flags VoiceStateType.mute ≤ 1 :=
  ⟨single_open_state_invariant.1 DiscordStatus _ [] DiscordStatus.online 0
      (by decide),
    single_open_state_invariant.2 ⟨0, none, []⟩ (SessionReachable.join 0)
      VoiceStateType.mute⟩

/-! ## C3: idempotent re-observation -/

/-- C3: re-observing a state equal (under the domain's equality rule) to
the currently open state is a no-op with outcome Unchanged, and a first
observation at `t₁` followed by any sequence of same-state re-observations
leaves exactly one interval, with start `t₁` and a null end — no
fragmentation. -/
theorem reobservation_idempotent :
    (∀ (σ : Type) (eq : σ → σ → Bool) (recs : List (IntervalRecord σ))
        (c : IntervalRecord σ) (s : σ) (t : Int),
      getOpen recs = some c → eq c.state s = true →
        observe eq recs s t = (recs, ObserveResult.unchanged)) ∧
    (∀ (σ : Type) (eq : σ → σ → Bool) (s : σ) (t₁ : Int) (ts : List Int),
      eq s s = true →
        observeAll eq (ts.map fun t => (s, t)) (observe eq [] s t₁).1
          = [⟨s, t₁, none⟩]) := by
  constructor
  · intro σ eq recs c s t hg he
    exact observe_eq_state_unchanged eq s t hg he
  · intro σ eq s t₁ ts hrefl
    have hopen : (observe eq [] s t₁).1 = [⟨s, t₁, none⟩] := by
      simp [observe, getOpen]
    rw [hopen]
    exact observeAll_same_singleton eq s t₁ hrefl ts

/-- Witness for `reobservation_idempotent`: repeated `online` pings. -/
theorem reobservation_idempotent_witness :
    observe (fun a b : DiscordStatus => decide (a = b))
      [⟨DiscordStatus.online, 1, none⟩] DiscordStatus.online 2
      = ([⟨DiscordStatus.online, 1, none⟩], ObserveResult.unchanged) ∧
    observeAll (fun a b : DiscordStatus => decide (a = b))
      ([2, 3].map fun t => (DiscordStatus.online, t))
      (observe (fun a b : DiscordStatus => decide (a = b)) []
        DiscordStatus.online 1).1
      = [⟨DiscordStatus.online, 1, none⟩] :=
  ⟨reobservation_idempotent.1 DiscordStatus _ _
      ⟨DiscordStatus.online, 1, none⟩ DiscordStatus.online 2 (by decide)
      (by decide),
    reobservation_idempotent.2 DiscordStatus _ DiscordStatus.online 1 [2, 3]
      (by decide)⟩

/-! ## C4: out-of-order observations -/

/-- C4 counterexample: the claim that every `observe` call with a timestamp
less than or equal to the open interval's start returns OutOfOrderError
fails at a same-state observation at exactly the open interval's start:
the specification's step 6 treats it as Unchanged, and the modelled engine
returns Unchanged, not OutOfOrderError. -/
theorem observe_at_open_start_same_state_unchanged :
    getOpen [(⟨DiscordStatus.online, 5, none⟩ : IntervalRecord DiscordStatus)]
      = some ⟨DiscordStatus.online, 5, none⟩ ∧
    (5 : Int) ≤ 5 ∧
    observe (fun a b : DiscordStatus => decide (a = b))
      [⟨DiscordStatus.online, 5, none⟩] DiscordStatus.online 5
      ≠ ([⟨DiscordStatus.online, 5, none⟩], ObserveResult.outOfOrderError) ∧
    observe (fun a b : DiscordStatus => decide (a = b))
      [⟨DiscordStatus.online, 5, none⟩] DiscordStatus.online 5
      = ([⟨DiscordStatus.online, 5, none⟩], ObserveResult.unchanged) := by
  decide

/-- C4, amended: an `observe` call whose timestamp is less than or equal to
the current open interval's start returns OutOfOrderError and leaves the
stored records unchanged whenever the observed state differs from the open
state; when the observed state equals the open state the call is the
Unchanged no-op, likewise leaving the records unchanged. -/
theorem out_of_order_observation_rejected :
    ∀ (σ : Type) (eq : σ → σ → Bool) (recs : List (IntervalRecord σ))
      (c : IntervalRecord σ) (s : σ) (t : Int),
      getOpen recs = some c → t ≤ c.start →
      (eq c.state s = false →
        observe eq recs s t = (recs, ObserveResult.outOfOrderError)) ∧
      (eq c.state s = true →
        observe eq recs s t = (recs, ObserveResult.unchanged)) := by
  intro σ eq recs c s t hg hle
  constructor
  · intro hne
    simp [observe, hg, hne, hle]
  · intro he
    simp [observe, hg, he]

/-- Witness for `out_of_order_observation_rejected`: a backdated `idle`
observation against an open `online` interval. -/
theorem out_of_order_observation_rejected_witness :
    observe (fun a b : DiscordStatus => decide (a = b))
      [⟨DiscordStatus.online, 5, none⟩] DiscordStatus.idle 4
      = ([⟨DiscordStatus.online, 5, none⟩], ObserveResult.outOfOrderError) :=
  (out_of_order_observation_rejected DiscordStatus _ _
      ⟨DiscordStatus.online, 5, none⟩ DiscordStatus.idle 4 (by decide)
      (by decide)).1 (by decide)

/-! ## C5: flags never outlive their session -/

/-- Auxiliary: in every reachable session state every flag interval starts
no earlier than the session joined, and once the session is closed every
flag interval is closed no later than the session's end. -/
theorem reachable_flags_confined (s : SessionState)
    (hs : SessionReachable s) :
    ∀ fl ∈ s.flags, s.joined_at ≤ fl.started_at ∧
      ∀ T, s.left_at = some T → ∃ e, fl.ended_at = some e ∧ e ≤ T := by
  induction hs with
  | join t =>
    intro fl hfl
    simp at hfl
  | flagOn s f t hs hleft htimes hguard ih =>
    intro fl hfl
    have hfl2 : fl ∈ s.flags ++ [⟨f, t, none⟩] := hfl
    rcases List.mem_append.mp hfl2 with hmem | hnew
    · refine ⟨(ih fl hmem).1, ?_⟩
      intro T hT
      have : s.left_at = some T := hT
      rw [hleft] at this
      cases this
    · have heq : fl = ⟨f, t, none⟩ := by simpa using hnew
      subst heq
      refine ⟨htimes.1, ?_⟩
      intro T hT
      have : s.left_at = some T := hT
      rw [hleft] at this
      cases this
  | flagOff s f t hs hleft htimes ih =>
    intro fl hfl
    have hfl2 : fl ∈ s.flags.map fun fl : FlagRecord =>
        if decide (fl.state_type = f) && fl.ended_at.isNone then
          { fl with ended_at := some t }
        else fl := hfl
    rcases List.mem_map.mp hfl2 with ⟨fl0, hmem, heq⟩
    constructor
    · have h1 := (ih fl0 hmem).1
      by_cases hc : (decide (fl0.state_type = f) && fl0.ended_at.isNone) = true
      · rw [← heq]
        simpa [hc] using h1
      · rw [← heq]
        simpa [hc] using h1
    · intro T hT
      have : s.left_at = some T := hT
      rw [hleft] at this
      cases this
  | leave s t hs hleft htimes ih =>
    intro fl hfl
    have hfl2 : fl ∈ s.flags.map fun fl : FlagRecord =>
        if fl.ended_at.isNone then { fl with ended_at := some t } else fl :=
      hfl
    rcases List.mem_map.mp hfl2 with ⟨fl0, hmem, heq⟩
    have h1 := (ih fl0 hmem).1
    have ht0 := htimes.2 fl0 hmem
    constructor
    · cases hend : fl0.ended_at with
      | none => rw [← heq]; simpa [hend] using h1
      | some e => rw [← heq]; simpa [hend] using h1
    · intro T hT
      have hTt : t = T := Option.some.inj (show some t = some T from hT)
      subst hTt
      cases hend : fl0.ended_at with
      | none =>
        refine ⟨t, ?_, le_refl t⟩
        rw [← heq]
        simp [hend]
      | some e =>
        refine ⟨e, ?_, ht0.2 e hend⟩
        rw [← heq]
        simp [hend]

/-- C5: closing a voice session at `t` force-closes every still-open flag
interval of that session with end `t` and leaves no flag interval open;
moreover in every reachable session state every flag interval starts no
earlier than its owning session's start and, once the session is closed at
some `T`, every flag interval carries an end at most `T` — no flag interval
outlives its session. -/
theorem session_close_confines_flags :
    (∀ (s : SessionState) (t : Int),
      (closeSession s t).left_at = some t ∧
      (∀ fl ∈ s.flags, fl.ended_at = none →
        ({ fl with ended_at := some t } : FlagRecord)
          ∈ (closeSession s t).flags) ∧
      ∀ fl ∈ (closeSession s t).flags, fl.ended_at ≠ none) ∧
    (∀ s : SessionState, SessionReachable s → ∀ fl ∈ s.flags,
      s.joined_at ≤ fl.started_at ∧
      ∀ T, s.left_at = some T → ∃ e, fl.ended_at = some e ∧ e ≤ T) := by
  constructor
  · intro s t
    refine ⟨rfl, ?_, ?_⟩
    · intro fl hfl hend
      have heq : ({ fl with ended_at := some t } : FlagRecord) =
          (fun fl : FlagRecord =>
            if fl.ended_at.isNone then { fl with ended_at := some t }
            else fl) fl := by
        simp [hend]
      rw [heq]
      exact List.mem_map_of_mem _ hfl
    · intro fl hfl
      have hfl2 : fl ∈ s.flags.map fun fl : FlagRecord =>
          if fl.ended_at.isNone then { fl with ended_at := some t } else fl :=
        hfl
      rcases List.mem_map.mp hfl2 with ⟨fl0, hmem, heq⟩
      cases hend : fl0.ended_at with
      | none => rw [← heq]; simp [hend]
      | some e => rw [← heq]; simp [hend]
  · exact reachable_flags_confined

/-- Witness for `session_close_confines_flags`: a joined session that opens
a mute flag at 6 and leaves at 7. -/
theorem session_close_confines_flags_witness :
    (SessionState.mk 5 (some 7) [⟨VoiceStateType.mute, 6, some 7⟩]).joined_at
        ≤ (FlagRecord.mk VoiceStateType.mute 6 (some 7)).started_at ∧
      ∀ T, (SessionState.mk 5 (some 7)
          [⟨VoiceStateType.mute, 6, some 7⟩]).left_at = some T →
        ∃ e, (FlagRecord.mk VoiceStateType.mute 6 (some 7)).ended_at = some e
          ∧ e ≤ T := by
  have h1 : SessionReachable ⟨5, none, []⟩ := SessionReachable.join 5
  have ht1 : timesBefore ⟨5, none, []⟩ 6 := by
    refine ⟨by decide, ?_⟩
    intro fl hfl
    simp at hfl
  have h2 : SessionReachable ⟨5, none, [⟨VoiceStateType.mute, 6, none⟩]⟩ :=
    SessionReachable.flagOn ⟨5, none, []⟩ VoiceStateType.mute 6 h1 rfl ht1
      (by decide)
  have ht2 : timesBefore ⟨5, none, [⟨VoiceStateType.mute, 6, none⟩]⟩ 7 := by
    refine ⟨by decide, ?_⟩
    intro fl hfl
    simp at hfl
    subst hfl
    refine ⟨by decide, ?_⟩
    intro e he
    cases he
  have h3 : SessionReachable ⟨5, some 7, [⟨VoiceStateType.mute, 6, some 7⟩]⟩ :=
    SessionReachable.leave ⟨5, none, [⟨VoiceStateType.mute, 6, none⟩]⟩ 7 h2
      rfl ht2
  exact session_close_confines_flags.2 _ h3 _ (by simp)

/-! ## C6: the current-state query -/

/-- C6: on an authenticated context and under the partial unique index,
`current_name` returns exactly the `user_names_history` row of the user
whose `effective_until` is null when one exists, and `None` exactly when no
such row exists. -/
theorem current_name_returns_open_row :
    ∀ (ctx : GraphQLContext) (db : DiscordDB) (uid : Int),
      ctx.is_authenticated = true →
      idx_user_names_unique_current db.user_names_history →
      (∀ r : UserNameHistory,
        UserType.current_name ctx db uid = Except.ok (some r) ↔
          r ∈ db.user_names_history ∧ r.user_id = uid ∧
            r.effective_until = none) ∧
      (UserType.current_name ctx db uid = Except.ok none ↔
        ∀ r ∈ db.user_names_history,
          ¬(r.user_id = uid ∧ r.effective_until = none)) := by
  intro ctx db uid hauth huniq
  have hgate : UserType.current_name ctx db uid
      = Except.ok (db.user_names_history.find? fun r =>
          r.user_id == uid && r.effective_until.isNone) := by
    simp [UserType.current_name, hauth]
  constructor
  · intro r
    constructor
    · intro h
      rw [hgate] at h
      have hfind := Except.ok.inj h
      have hp := List.find?_some hfind
      have hm := List.mem_of_find?_eq_some hfind
      simp only [Bool.and_eq_true, beq_iff_eq, Option.isNone_iff_eq_none]
        at hp
      exact ⟨hm, hp.1, hp.2⟩
    · rintro ⟨hm, hid, huntil⟩
      cases hfind : db.user_names_history.find? (fun r =>
          r.user_id == uid && r.effective_until.isNone) with
      | none =>
        rw [List.find?_eq_none] at hfind
        exact absurd (by simp [hid, huntil]) (hfind r hm)
      | some r2 =>
        have hp2 := List.find?_some hfind
        have hm2 := List.mem_of_find?_eq_some hfind
        simp only [Bool.and_eq_true, beq_iff_eq, Option.isNone_iff_eq_none]
          at hp2
        have hr2 : r2 = r :=
          huniq r2 hm2 r hm hp2.2 huntil (hp2.1.trans hid.symm)
        rw [hgate, hfind, hr2]
  · constructor
    · intro h r hm hr
      rw [hgate] at h
      have hfind := Except.ok.inj h
      rw [List.find?_eq_none] at hfind
      exact hfind r hm (by simp [hr.1, hr.2])
    · intro h
      rw [hgate]
      cases hfind : db.user_names_history.find? (fun r =>
          r.user_id == uid && r.effective_until.isNone) with
      | none => rfl
      | some r2 =>
        have hp2 := List.find?_some hfind
        have hm2 := List.mem_of_find?_eq_some hfind
        simp only [Bool.and_eq_true, beq_iff_eq, Option.isNone_iff_eq_none]
          at hp2
        exact absurd ⟨hp2.1, hp2.2⟩ (h r2 hm2)

/-- Witness for `current_name_returns_open_row`: one open name row. -/
theorem current_name_returns_open_row_witness :
    UserType.current_name ⟨some ⟨1, "key", UserRole.read, 0⟩⟩
      ⟨[], [⟨7, 1, "alice", none, none, 3, none⟩], [], []⟩ 1
      = Except.ok (some ⟨7, 1, "alice", none, none, 3, none⟩) :=
  ((current_name_returns_open_row ⟨some ⟨1, "key", UserRole.read, 0⟩⟩
      ⟨[], [⟨7, 1, "alice", none, none, 3, none⟩], [], []⟩ 1 (by decide)
      (by
        intro a ha b hb h1 h2 h3
        simp only [List.mem_singleton] at ha hb
        subst ha
        subst hb
        rfl)).1 ⟨7, 1, "alice", none, none, 3, none⟩).mpr
    ⟨by simp, rfl, rfl⟩

/-! ## C7 and C8: duration computation of the query layer -/

/-- Auxiliary: appending one session row changes the user's voice total by
the session's full duration when the row passes the query's filter, and by
nothing otherwise. -/
theorem stats_total_voice_seconds_append (db : DiscordDB) (uid : Int)
    (w : Option Int) (s : VoiceSession) :
    stats_total_voice_seconds
      { db with voice_sessions := db.voice_sessions ++ [s] } uid w
      = stats_total_voice_seconds db uid w +
        if s.user_id == uid && s.left_at.isSome &&
            (match w with
             | none => true
             | some d => decide (d ≤ s.joined_at)) then
          s.left_at.getD s.joined_at - s.joined_at
        else 0 := by
  unfold stats_total_voice_seconds
  rw [show ({ db with voice_sessions := db.voice_sessions ++ [s] } :
      DiscordDB).voice_sessions = db.voice_sessions ++ [s] from rfl]
  rw [List.filter_append, List.map_append, List.sum_append]
  by_cases hp : (s.user_id == uid && s.left_at.isSome &&
      (match w with
       | none => true
       | some d => decide (d ≤ s.joined_at))) = true
  · simp [List.filter_cons, hp]
  · simp [List.filter_cons, hp]

/-- Auxiliary: the same for the server-wide voice total. -/
theorem server_stats_total_voice_seconds_append (db : DiscordDB)
    (w : Option Int) (s : VoiceSession) :
    server_stats_total_voice_seconds
      { db with voice_sessions := db.voice_sessions ++ [s] } w
      = server_stats_total_voice_seconds db w +
        if s.left_at.isSome &&
            (match w with
             | none => true
             | some d => decide (d ≤ s.joined_at)) then
          s.left_at.getD s.joined_at - s.joined_at
        else 0 := by
  unfold server_stats_total_voice_seconds
  rw [show ({ db with voice_sessions := db.voice_sessions ++ [s] } :
      DiscordDB).voice_sessions = db.voice_sessions ++ [s] from rfl]
  rw [List.filter_append, List.map_append, List.sum_append]
  by_cases hp : (s.left_at.isSome &&
      (match w with
       | none => true
       | some d => decide (d ≤ s.joined_at))) = true
  · simp [List.filter_cons, hp]
  · simp [List.filter_cons, hp]

/-- C7 counterexample: the claim that the duration queries compute the
spec's `duration_in` — clipping to the window and counting open records up
to the window end — fails on an open session: the spec formula assigns it
the full window, while the code's voice totals exclude it entirely
(`left_at IS NOT NULL`). -/
theorem open_session_excluded_from_voice_totals :
    duration_in_spec ⟨[], [], [⟨1, 1, 9, 0, none⟩], []⟩ 1 0 100 = 100 ∧
    stats_total_voice_seconds ⟨[], [], [⟨1, 1, 9, 0, none⟩], []⟩ 1 (some 0)
      = 0 ∧
    ((100 : Int) ≠ 0) := by
  decide

/-- C7, amended: the query layer's duration totals sum the full, unclipped
duration `end - start` of closed records only: appending an open session
leaves both the per-user and the server-wide voice totals unchanged (open
records contribute nothing, and their stored end stays null), while
appending a closed session of the queried user adds exactly its full
duration. -/
theorem voice_duration_totals_closed_full :
    (∀ (db : DiscordDB) (uid : Int) (w : Option Int) (s : VoiceSession),
      s.left_at = none →
        stats_total_voice_seconds
          { db with voice_sessions := db.voice_sessions ++ [s] } uid w
          = stats_total_voice_seconds db uid w) ∧
    (∀ (db : DiscordDB) (uid : Int) (s : VoiceSession) (e : Int),
      s.left_at = some e → s.user_id = uid →
        stats_total_voice_seconds
          { db with voice_sessions := db.voice_sessions ++ [s] } uid none
          = stats_total_voice_seconds db uid none + (e - s.joined_at)) ∧
    (∀ (db : DiscordDB) (w : Option Int) (s : VoiceSession),
      s.left_at = none →
        server_stats_total_voice_seconds
          { db with voice_sessions := db.voice_sessions ++ [s] } w
          = server_stats_total_voice_seconds db w) := by
  refine ⟨?_, ?_, ?_⟩
  · intro db uid w s hnone
    rw [stats_total_voice_seconds_append]
    simp [hnone]
  · intro db uid s e hsome hid
    rw [stats_total_voice_seconds_append]
    simp [hsome, hid]
  · intro db w s hnone
    rw [server_stats_total_voice_seconds_append]
    simp [hnone]

/-- Witness for `voice_duration_totals_closed_full` at concrete stores. -/
theorem voice_duration_totals_closed_full_witness :
    stats_total_voice_seconds
      ⟨[], [], [⟨0, 1, 2, 0, some 60⟩] ++ [⟨1, 1, 2, 70, none⟩], []⟩ 1 none
      = stats_total_voice_seconds ⟨[], [], [⟨0, 1, 2, 0, some 60⟩], []⟩ 1
          none ∧
    stats_total_voice_seconds
      ⟨[], [], [] ++ [⟨0, 1, 2, 10, some 60⟩], []⟩ 1 none
      = stats_total_voice_seconds ⟨[], [], [], []⟩ 1 none + (60 - 10) ∧
    server_stats_total_voice_seconds
      ⟨[], [], [] ++ [⟨1, 1, 2, 70, none⟩], []⟩ none
      = server_stats_total_voice_seconds ⟨[], [], [], []⟩ none :=
  ⟨voice_duration_totals_closed_full.1 ⟨[], [], [⟨0, 1, 2, 0, some 60⟩], []⟩
      1 none ⟨1, 1, 2, 70, none⟩ rfl,
    voice_duration_totals_closed_full.2.1 ⟨[], [], [], []⟩ 1
      ⟨0, 1, 2, 10, some 60⟩ 60 rfl rfl,
    voice_duration_totals_closed_full.2.2 ⟨[], [], [], []⟩ none
      ⟨1, 1, 2, 70, none⟩ rfl⟩

/-- C8: every duration the query layer produces is non-negative — the
per-record `duration_minutes` fields clamp at zero, the voice total over a
store satisfying the voice-session CHECK constraint is non-negative, and a
session lying outside the query window (joined before the window start)
contributes zero to the windowed total. -/
theorem query_durations_nonnegative :
    (∀ (s : VoiceSession) (d : Int),
      VoiceSessionType.duration_minutes s = some d → 0 ≤ d) ∧
    (∀ (v : VoiceStateLog) (d : Int),
      VoiceStateLogType.duration_minutes v = some d → 0 ≤ d) ∧
    (∀ (db : DiscordDB) (uid : Int) (w : Option Int),
      (∀ s ∈ db.voice_sessions, ck_voice_session_valid_period s = true) →
        0 ≤ stats_total_voice_seconds db uid w) ∧
    (∀ (db : DiscordDB) (uid d : Int) (s : VoiceSession),
      s.joined_at < d →
        stats_total_voice_seconds
          { db with voice_sessions := db.voice_sessions ++ [s] } uid (some d)
          = stats_total_voice_seconds db uid (some d)) := by
  refine ⟨?_, ?_, ?_, ?_⟩
  · intro s d h
    unfold VoiceSessionType.duration_minutes at h
    cases hl : s.left_at with
    | none => rw [hl] at h; cases h
    | some e =>
      rw [hl] at h
      have hd := Option.some.inj h
      rw [← hd]
      exact le_max_left 0 _
  · intro v d h
    unfold VoiceStateLogType.duration_minutes at h
    cases hl : v.ended_at with
    | none => rw [hl] at h; cases h
    | some e =>
      rw [hl] at h
      have hd := Option.some.inj h
      rw [← hd]
      exact le_max_left 0 _
  · intro db uid w hck
    unfold stats_total_voice_seconds
    apply List.sum_nonneg
    intro x hx
    rcases List.mem_map.mp hx with ⟨s, hs, rfl⟩
    have hmem := (List.mem_filter.mp hs).1
    have hp := (List.mem_filter.mp hs).2
    simp only [Bool.and_eq_true] at hp
    obtain ⟨⟨hid, hsome⟩, hw⟩ := hp
    rcases Option.isSome_iff_exists.mp hsome with ⟨e, he⟩
    have hcks := hck s hmem
    unfold ck_voice_session_valid_period at hcks
    rw [he] at hcks
    rw [he]
    simp only [Option.getD_some]
    simp at hcks
    omega
  · intro db uid d s hout
    rw [stats_total_voice_seconds_append]
    have hd : decide (d ≤ s.joined_at) = false :=
      decide_eq_false (not_le.mpr hout)
    simp [hd]

/-- Witness for `query_durations_nonnegative` at concrete rows/stores. -/
theorem query_durations_nonnegative_witness :
    (0 : Int) ≤ 1 ∧ (0 : Int) ≤ 0 ∧
    (0 : Int) ≤ stats_total_voice_seconds
      ⟨[], [], [⟨0, 1, 2, 0, some 60⟩], []⟩ 1 none ∧
    stats_total_voice_seconds
      ⟨[], [], [] ++ [⟨0, 1, 2, 0, some 5⟩], []⟩ 1 (some 3)
      = stats_total_voice_seconds ⟨[], [], [], []⟩ 1 (some 3) :=
  ⟨query_durations_nonnegative.1 ⟨0, 1, 2, 0, some 90⟩ 1 (by decide),
    query_durations_nonnegative.2.1 ⟨0, 1, VoiceStateType.mute, 0, some 30⟩ 0
      (by decide),
    query_durations_nonnegative.2.2.1 ⟨[], [], [⟨0, 1, 2, 0, some 60⟩], []⟩ 1
      none (by decide),
    query_durations_nonnegative.2.2.2 ⟨[], [], [], []⟩ 1 3 ⟨0, 1, 2, 0, some 5⟩
      (by decide)⟩

/-! ## C9: the authentication gate -/

/-- C9 counterexample: the claim that every GraphQL query field raises
"Authentication required" on an unauthenticated context and returns no data
fails on `hello`, which returns a greeting string without raising, and on
the admin-only `api_keys`, which raises "Admin access required" instead. -/
theorem unauthenticated_fields_divergent :
    Query.hello ⟨none⟩
      = "Hello! Please authenticate to access Discord data." ∧
    Query.api_keys ⟨none⟩ [] = Except.error "Admin access required" ∧
    "Admin access required" ≠ "Authentication required" :=
  ⟨rfl, rfl, by decide⟩

/-- C9, amended: on an unauthenticated context every embedded GraphQL field
that reads the Discord store raises "Authentication required" before any
database read and returns no data; the admin-only API-key listing raises
"Admin access required"; and `hello` returns a fixed greeting that exposes
no stored data. In all cases no stored data reaches an unauthenticated
caller. -/
theorem auth_gate_blocks_unauthenticated :
    ∀ (ctx : GraphQLContext) (db : DiscordDB) (keys : List ApiKey)
      (uid sid : Int) (q : String) (lim : Nat) (w : Option Int),
      ctx.is_authenticated = false →
      Query.user ctx db uid = Except.error "Authentication required" ∧
      Query.search_users ctx db q lim
        = Except.error "Authentication required" ∧
      UserType.current_name ctx db uid
        = Except.error "Authentication required" ∧
      UserType.stats_voice ctx db uid w
        = Except.error "Authentication required" ∧
      VoiceSessionType.voice_states ctx db sid
        = Except.error "Authentication required" ∧
      Query.server_stats_voice ctx db w
        = Except.error "Authentication required" ∧
      Query.me ctx = Except.error "Authentication required" ∧
      Query.api_keys ctx keys = Except.error "Admin access required" ∧
      Query.hello ctx
        = "Hello! Please authenticate to access Discord data." := by
  intro ctx db keys uid sid q lim w hauth
  have hnone : ctx.api_key = none := by
    unfold GraphQLContext.is_authenticated at hauth
    exact Option.not_isSome_iff_eq_none.mp (by simp [hauth])
  have hadmin : ctx.is_admin = false := by
    unfold GraphQLContext.is_admin
    rw [hnone]
  refine ⟨?_, ?_, ?_, ?_, ?_, ?_, ?_, ?_, ?_⟩ <;>
    simp [Query.user, Query.search_users, UserType.current_name,
      UserType.stats_voice, VoiceSessionType.voice_states,
      Query.server_stats_voice, Query.me, Query.api_keys, Query.hello,
      hauth, hadmin, hnone]

/-- Witness for `auth_gate_blocks_unauthenticated` at the empty context. -/
theorem auth_gate_blocks_unauthenticated_witness :
    Query.user ⟨none⟩ ⟨[], [], [], []⟩ 1
      = Except.error "Authentication required" :=
  (auth_gate_blocks_unauthenticated ⟨none⟩ ⟨[], [], [], []⟩ [] 1 2 "q" 3
      none rfl).1

/-! ## C10: user search -/

/-- C10: `search_users` returns the empty list, without consulting the
store, for any query shorter than two characters after stripping; and every
user it returns for a longer query carries a current name row
(`effective_until IS NULL`) matching the stripped search term — historical
name rows are never matched. -/
theorem search_users_short_query_and_current_only :
    (∀ (ctx : GraphQLContext) (db : DiscordDB) (q : String) (lim : Nat),
      ctx.is_authenticated = true → (pyStrip q).length < 2 →
        Query.search_users ctx db q lim = Except.ok []) ∧
    (∀ (ctx : GraphQLContext) (db : DiscordDB) (q : String) (lim : Nat)
        (us : List UserRow) (u : UserRow),
      Query.search_users ctx db q lim = Except.ok us → u ∈ us →
        ∃ r ∈ db.user_names_history,
          r.user_id = u.user_id ∧ r.effective_until = none ∧
            matchesCurrentName (pyStrip q) r = true) := by
  constructor
  · intro ctx db q lim hauth hshort
    unfold Query.search_users
    rw [hauth]
    simp [hshort]
  · intro ctx db q lim us u hok hu
    unfold Query.search_users at hok
    cases hauth : ctx.is_authenticated with
    | false =>
      rw [hauth] at hok
      cases hok
    | true =>
      rw [hauth] at hok
      by_cases hshort : (q == "" || decide ((pyStrip q).length < 2)) = true
      · rw [if_neg (by simp), if_pos hshort] at hok
        have hus := Except.ok.inj hok
        rw [← hus] at hu
        cases hu
      · rw [if_neg (by simp), if_neg hshort] at hok
        have hus := Except.ok.inj hok
        rw [← hus] at hu
        have hu2 := List.take_subset _ _ hu
        rw [List.mem_mergeSort] at hu2
        have hpred := (List.mem_filter.mp hu2).2
        rw [List.any_eq_true] at hpred
        rcases hpred with ⟨r, hr, hp⟩
        simp only [Bool.and_eq_true, beq_iff_eq, Option.isNone_iff_eq_none]
          at hp
        exact ⟨r, hr, hp.1.1, hp.1.2, hp.2⟩

/-- Witness for `search_users_short_query_and_current_only`: a one-letter
query on an authenticated context. -/
theorem search_users_short_query_witness :
    Query.search_users ⟨some ⟨1, "key", UserRole.read, 0⟩⟩ ⟨[], [], [], []⟩
      "a" 5 = Except.ok [] :=
  search_users_short_query_and_current_only.1
    ⟨some ⟨1, "key", UserRole.read, 0⟩⟩ ⟨[], [], [], []⟩ "a" 5 rfl (by decide)

/-! ## C2: strictness of the stored-interval period constraints -/

/-- C2 counterexample: the claim that every stored closed interval satisfies
`end > start` strictly fails on the schema. The presence CHECK constraint
`ck_presence_status_valid_period` accepts a closed interval with
`changed_at = set_at`, i.e. the store admits a zero-duration presence
interval, while `end > start` fails at that row. -/
theorem presence_zero_duration_interval_admitted :
    ck_presence_status_valid_period
      ⟨0, 1, DiscordStatus.online, 5, some 5⟩ = true ∧ ¬ ((5 : Int) < 5) := by
  decide

/-- C2, amended: every stored closed interval has non-negative duration —
`end ≥ start` is enforced by the CHECK constraints of the presence, voice
session, voice state and activity tables, so no negative-duration interval
is ever stored, but zero-duration closed intervals are admitted there; only
`user_names_history` enforces `end > start` strictly. -/
theorem stored_interval_period_constraints :
    (∀ (r : PresenceStatusLog) (e : Int),
      ck_presence_status_valid_period r = true → r.changed_at = some e →
        r.set_at ≤ e) ∧
    (∀ (r : VoiceSession) (e : Int),
      ck_voice_session_valid_period r = true → r.left_at = some e →
        r.joined_at ≤ e) ∧
    (∀ (r : VoiceStateLog) (e : Int),
      ck_voice_state_log_valid_period r = true → r.ended_at = some e →
        r.started_at ≤ e) ∧
    (∀ (r : ActivityLog) (e : Int),
      ck_activity_log_valid_period r = true → r.ended_at = some e →
        r.started_at ≤ e) ∧
    (∀ (r : UserNameHistory) (e : Int),
      ck_user_names_history_valid_period r = true → r.effective_until = some e →
        r.effective_from < e) := by
  refine ⟨?_, ?_, ?_, ?_, ?_⟩ <;>
    · intro r e hck he
      simp [ck_presence_status_valid_period, ck_voice_session_valid_period,
        ck_voice_state_log_valid_period, ck_activity_log_valid_period,
        ck_user_names_history_valid_period, he] at hck
      exact hck

/-- Witness for `stored_interval_period_constraints` at concrete rows. -/
theorem stored_interval_period_constraints_witness :
    (1 : Int) ≤ 4 ∧ (2 : Int) ≤ 5 ∧ (3 : Int) ≤ 6 ∧ (4 : Int) ≤ 7 ∧
      (5 : Int) < 9 :=
  ⟨stored_interval_period_constraints.1
      ⟨0, 1, DiscordStatus.idle, 1, some 4⟩ 4 (by decide) rfl,
    stored_interval_period_constraints.2.1
      ⟨0, 1, 2, 2, some 5⟩ 5 (by decide) rfl,
    stored_interval_period_constraints.2.2.1
      ⟨0, 1, VoiceStateType.mute, 3, some 6⟩ 6 (by decide) rfl,
    stored_interval_period_constraints.2.2.2.1
      ⟨0, 1, ActivityType.playing, "chess", 4, some 7⟩ 7 (by decide) rfl,
    stored_interval_period_constraints.2.2.2.2
      ⟨0, 1, "a", none, none, 5, some 9⟩ 9 (by decide) rfl⟩

end FbiBotApi
